import Mathlib

/-!
# Verification of the gensyn_stats monitoring pipeline

Shallow embedding of the core data-collection and change-detection logic of
the repository (files `gensyn_data_collector.py` and `data_manager.py`),
together with proofs of the specification claims.

Modelling conventions:
* Python dicts are modelled as association lists built with `dictInsert`,
  which updates an existing key in place (Python dict assignment semantics:
  last write wins, original key position kept).
* Machine integers are modelled as `Int`; Python floats arising from
  timestamp arithmetic (`timestamp / 1000`, `(now - ts) / 60`) are modelled
  exactly as `ℚ`; Python `int(...)` on a float is truncation toward zero
  (`pyTrunc`).
* Network calls are parameters: the peer-info service is a function
  `String → Option PeerInfo`, the explorer endpoints of the Activity Prober
  are a list `List (Option (List TxRecord))` (`none` = request failure /
  non-200 / JSON error, `some txs` = parsed transaction list), and the
  contract call attempts of the Address Resolver are a list
  `List (Except Unit (List String))`.
-/

/-! ## Python dict model -/

/-- Python dict assignment `d[k] = v`: overwrite the value of an existing key
in place, otherwise append a new binding at the end. -/
def dictInsert {α : Type} : List (String × α) → String → α → List (String × α)
  | [], k, v => [(k, v)]
  | (k0, v0) :: rest, k, v =>
      if k0 = k then (k0, v) :: rest else (k0, v0) :: dictInsert rest k v

/-- Python `k in d` / `d[k]` lookup (keys built by `dictInsert` are unique). -/
def dictLookup {α : Type} : List (String × α) → String → Option α
  | [], _ => none
  | (k0, v0) :: rest, k => if k0 = k then some v0 else dictLookup rest k

/-- Python `d.get(k)` on a dict whose values are themselves optional
(`d.get(k)` returns `None` both for a missing key and for a stored `None`). -/
def dictGet (d : List (String × Option String)) (k : String) : Option String :=
  (dictLookup d k).getD none

/-! ## Data model (`collect_node_data` record shape) -/

/-- One row of the Excel roster (`read_nodes_data`). -/
structure NodeDescriptor where
  custom_name : String
  node_id : String
  hardware_type : String
  deriving Repr, DecidableEq

/-- The JSON object returned by the peer-status service; each field is
optional because the code reads them with `.get(key, default)`. -/
structure PeerInfo where
  peerName : Option String
  online : Option Bool
  score : Option Int
  reward : Option Int
  deriving Repr, DecidableEq

/-- The per-node snapshot record built by `collect_node_data`.  Field names
follow the source: `reward` holds the win counter (populated from the peer
service's `score` field) and `score` holds the reward counter (populated
from the peer service's `reward` field) — the cross-wired mapping of the
source, lines 398–399. -/
structure NodeRecord where
  id : String
  custom_name : String
  api_name : String
  hardware_type : String
  address : Option String
  reward : Int
  score : Int
  online : Bool
  last_tx_minutes_ago : Option Int
  timestamp : String
  deriving Repr, DecidableEq

/-! ## Snapshot Store (`data_manager.save_to_history`) -/

/-- One entry of `history.json`: `{'timestamp': ..., 'data': ...}`. -/
structure HistoryEntry where
  timestamp : String
  data : List NodeRecord
  deriving Repr, DecidableEq

/-- Embeds `DataManager.save_to_history`, lines 39–60: append the new entry, then
if the list exceeds 100 entries keep only the last 100
(`history = history[-100:]`).  The file I/O around it is not modelled; the
function maps the previously persisted list to the newly persisted list. -/
def save_to_history (history : List HistoryEntry) (entry : HistoryEntry) :
    List HistoryEntry :=
  let h := history ++ [entry]
  if h.length > 100 then h.drop (h.length - 100) else h

/-! ## Change Calculator (`data_manager.calculate_changes`) -/

/-- The per-node diff dict built by `calculate_changes`.  `reward_change`
is the delta of the record field `reward` (the win counter),
`score_change` the delta of `score` (the reward counter). -/
structure ChangeEntry where
  reward_change : Int
  score_change : Int
  online_change : Bool
  tx_time_change : Option Int
  deriving Repr, DecidableEq

/-- Body of the dict literal at lines 73–81: `tx_time_change` starts as
`None` and is overwritten with the difference only when both records have a
non-null `last_tx_minutes_ago`. -/
def mkChangeEntry (c p : NodeRecord) : ChangeEntry :=
  { reward_change := c.reward - p.reward
    score_change := c.score - p.score
    online_change := c.online != p.online
    tx_time_change :=
      match c.last_tx_minutes_ago, p.last_tx_minutes_ago with
      | some a, some b => some (a - b)
      | _, _ => none }

/-- Embeds `DataManager.calculate_changes`, lines 62–83.  `previous = none` models
`previous_data = None`; `if not previous_data` is also true for the empty
list.  `prev_dict` is the dict comprehension keyed by `item['id']`; the
result dict gains one entry per current record whose id is in `prev_dict`,
later writes overwriting earlier ones. -/
def calculate_changes (current : List NodeRecord)
    (previous : Option (List NodeRecord)) : List (String × ChangeEntry) :=
  match previous with
  | none => []
  | some prev =>
    if prev = [] then []
    else
      let prev_dict : List (String × NodeRecord) :=
        prev.foldl (fun d item => dictInsert d item.id item) []
      current.foldl (fun changes c =>
        match dictLookup prev_dict c.id with
        | some p => dictInsert changes c.id (mkChangeEntry c p)
        | none => changes) []

/-- The last record of `l` whose `id` equals `id` — the record a Python dict
keyed by `id` would retain after inserting all of `l` in order. -/
def lookupLast : List NodeRecord → String → Option NodeRecord
  | [], _ => none
  | r :: rest, id =>
      match lookupLast rest id with
      | some x => some x
      | none => if r.id = id then some r else none

/-! ### Dict lemmas -/

theorem dictLookup_dictInsert {α : Type} (d : List (String × α)) (k k2 : String)
    (v : α) :
    dictLookup (dictInsert d k v) k2 =
      if k = k2 then some v else dictLookup d k2 := by
  induction d with
  | nil =>
      simp only [dictInsert, dictLookup]
  | cons hd tl ih =>
      obtain ⟨k0, v0⟩ := hd
      by_cases h0 : k0 = k
      · subst h0
        simp only [dictInsert, if_pos rfl, dictLookup]
        by_cases h2 : k0 = k2 <;> simp [h2]
      · simp only [dictInsert, if_neg h0, dictLookup, ih]
        by_cases h2 : k0 = k2
        · subst h2
          rw [if_pos rfl, if_neg (fun h => h0 h.symm), if_pos rfl]
        · simp [h2]

theorem dictLookup_foldl_insert_records (l : List NodeRecord)
    (d0 : List (String × NodeRecord)) (id : String) :
    dictLookup (l.foldl (fun d item => dictInsert d item.id item) d0) id =
      match lookupLast l id with
      | some r => some r
      | none => dictLookup d0 id := by
  induction l generalizing d0 with
  | nil => simp [lookupLast]
  | cons r rest ih =>
      simp only [List.foldl_cons, lookupLast]
      rw [ih]
      cases h : lookupLast rest id with
      | some x => simp
      | none =>
          simp only [dictLookup_dictInsert]
          by_cases hr : r.id = id
          · rw [if_pos hr, if_pos hr]
          · rw [if_neg hr, if_neg hr]

theorem lookupLast_isSome_iff (l : List NodeRecord) (id : String) :
    (lookupLast l id).isSome ↔ id ∈ l.map (fun r => r.id) := by
  induction l with
  | nil => simp [lookupLast]
  | cons r rest ih =>
      simp only [lookupLast, List.map_cons, List.mem_cons]
      cases h : lookupLast rest id with
      | some x =>
          simp only [Option.isSome_some, true_iff]
          right
          rw [h] at ih
          simpa using ih.mp rfl
      | none =>
          rw [h] at ih
          simp only [Option.isSome_none, Bool.false_eq_true, false_iff] at ih
          by_cases hr : r.id = id
          · simp [if_pos hr, hr]
          · simp only [if_neg hr, Option.isSome_none, Bool.false_eq_true,
              false_iff]
            intro hc
            rcases hc with hc | hc
            · exact hr hc.symm
            · exact ih hc

theorem lookupLast_spec (l : List NodeRecord) (id : String) (r : NodeRecord)
    (h : lookupLast l id = some r) : r ∈ l ∧ r.id = id := by
  induction l with
  | nil => simp [lookupLast] at h
  | cons a rest ih =>
      simp only [lookupLast] at h
      cases h2 : lookupLast rest id with
      | some x =>
          rw [h2] at h
          obtain ⟨hm, hid⟩ := ih (h2.trans (congrArg some (Option.some.inj h)))
          exact ⟨List.mem_cons_of_mem _ hm, hid⟩
      | none =>
          rw [h2] at h
          by_cases ha : a.id = id
          · rw [if_pos ha] at h
            cases h
            exact ⟨List.mem_cons_self _ _, ha⟩
          · rw [if_neg ha] at h
            cases h

theorem lookupLast_of_nodup (l : List NodeRecord) (r : NodeRecord)
    (hnd : (l.map (fun x => x.id)).Nodup) (hm : r ∈ l) :
    lookupLast l r.id = some r := by
  induction l with
  | nil => simp at hm
  | cons a rest ih =>
      simp only [List.map_cons, List.nodup_cons] at hnd
      rcases List.mem_cons.mp hm with heq | hmem
      · subst heq
        have hnone : lookupLast rest r.id = none := by
          cases h : lookupLast rest r.id with
          | none => rfl
          | some x =>
              obtain ⟨hx, hxid⟩ := lookupLast_spec rest r.id x h
              exact absurd (hxid ▸ List.mem_map_of_mem (fun y => y.id) hx)
                hnd.1
        simp [lookupLast, hnone]
      · have := ih hnd.2 hmem
        simp [lookupLast, this]

theorem dictLookup_changes_foldl (cur : List NodeRecord)
    (pd : List (String × NodeRecord)) (ch0 : List (String × ChangeEntry))
    (id : String) :
    dictLookup (cur.foldl (fun changes c =>
        match dictLookup pd c.id with
        | some p => dictInsert changes c.id (mkChangeEntry c p)
        | none => changes) ch0) id =
      match dictLookup pd id, lookupLast cur id with
      | some p, some c => some (mkChangeEntry c p)
      | some _, none => dictLookup ch0 id
      | none, _ => dictLookup ch0 id := by
  induction cur generalizing ch0 with
  | nil =>
      simp only [List.foldl_nil, lookupLast]
      cases dictLookup pd id <;> rfl
  | cons c rest ih =>
      simp only [List.foldl_cons, lookupLast]
      rw [ih]
      by_cases hc : c.id = id
      · subst hc
        cases hp : dictLookup pd c.id with
        | none =>
            cases lookupLast rest c.id <;> simp
        | some p =>
            cases hr : lookupLast rest c.id with
            | some x => simp
            | none => simp [dictLookup_dictInsert]
      · cases hp : dictLookup pd id with
        | none =>
            cases hpc : dictLookup pd c.id with
            | none => rfl
            | some p =>
                cases lookupLast rest id <;>
                  simp [dictLookup_dictInsert, hc]
        | some p =>
            cases hr : lookupLast rest id with
            | some x => simp
            | none =>
                cases hpc : dictLookup pd c.id with
                | none => simp [hc]
                | some q => simp [dictLookup_dictInsert, hc]

/-- Characterization of `calculate_changes` with a present previous list:
the entry stored for `id` is computed from the last current record and the
last previous record carrying that id, and exists exactly when both do. -/
theorem calculate_changes_lookup (cur prev : List NodeRecord) (id : String) :
    dictLookup (calculate_changes cur (some prev)) id =
      match lookupLast cur id, lookupLast prev id with
      | some c, some p => some (mkChangeEntry c p)
      | _, _ => none := by
  by_cases hprev : prev = []
  · subst hprev
    simp only [calculate_changes, if_pos rfl, dictLookup, lookupLast]
    cases lookupLast cur id <;> rfl
  · simp only [calculate_changes, if_neg hprev]
    rw [dictLookup_changes_foldl]
    rw [dictLookup_foldl_insert_records]
    cases hp : lookupLast prev id with
    | none =>
        cases lookupLast cur id <;> rfl
    | some p =>
        cases lookupLast cur id <;> rfl

/-! ## Claim theorems: Change Calculator and Snapshot Store -/

/-- C2: `calculate_changes` returns an entry for exactly the ids present in
both the current and the previous record set, and (for unique ids, the
record-set invariant) each entry satisfies: win delta = current `reward` −
previous `reward` (the record's `reward` field is its win counter), reward
delta = current `score` − previous `score`, `online_change` =
(current online ≠ previous online), and `tx_time_change` is the difference
of `last_tx_minutes_ago` when both are non-null and `none` otherwise. -/
theorem claim_C2 (cur prev : List NodeRecord)
    (hc : (cur.map (fun r => r.id)).Nodup)
    (hp : (prev.map (fun r => r.id)).Nodup) :
    (∀ id, (dictLookup (calculate_changes cur (some prev)) id).isSome ↔
        (id ∈ cur.map (fun r => r.id) ∧ id ∈ prev.map (fun r => r.id)))
    ∧ (∀ c p, c ∈ cur → p ∈ prev → p.id = c.id →
        dictLookup (calculate_changes cur (some prev)) c.id =
          some { reward_change := c.reward - p.reward
                 score_change := c.score - p.score
                 online_change := c.online != p.online
                 tx_time_change :=
                   match c.last_tx_minutes_ago, p.last_tx_minutes_ago with
                   | some a, some b => some (a - b)
                   | _, _ => none }) := by
  constructor
  · intro id
    rw [calculate_changes_lookup, ← lookupLast_isSome_iff,
      ← lookupLast_isSome_iff]
    cases lookupLast cur id <;> cases lookupLast prev id <;> simp
  · intro c p hcm hpm hid
    have h1 : lookupLast cur c.id = some c := lookupLast_of_nodup cur c hc hcm
    have h2 : lookupLast prev c.id = some p := by
      rw [← hid]; exact lookupLast_of_nodup prev p hp hpm
    rw [calculate_changes_lookup, h1, h2]
    rfl

/-- Current-cycle sample record used to instantiate the claim theorems. -/
def recCurA : NodeRecord :=
  { id := "nodeA", custom_name := "n1", api_name := "apiA"
    hardware_type := "CPU", address := some "0xA", reward := 15, score := 23
    online := true, last_tx_minutes_ago := some 12, timestamp := "t1" }

/-- Previous-cycle sample record with the same id as `recCurA`. -/
def recPrevA : NodeRecord :=
  { id := "nodeA", custom_name := "n1", api_name := "apiA"
    hardware_type := "CPU", address := some "0xA", reward := 10, score := 20
    online := false, last_tx_minutes_ago := some 5, timestamp := "t0" }

theorem claim_C2_witness :
    dictLookup (calculate_changes [recCurA] (some [recPrevA])) "nodeA" =
      some { reward_change := 5, score_change := 3, online_change := true
             tx_time_change := some 7 } := by
  have h := (claim_C2 [recCurA] [recPrevA] (by decide) (by decide)).2
    recCurA recPrevA (by decide) (by decide) (by decide)
  exact h.trans (by decide)

/-- C5: `save_to_history` appends the new entry and then enforces the
100-entry cap by FIFO eviction: the stored list has `min (n+1) 100`
entries, never more than 100; appending to a 100-entry history drops
exactly the oldest entry, keeps the order of the remaining entries, and
puts the new entry last. -/
theorem claim_C5 (history : List HistoryEntry) (entry : HistoryEntry) :
    (save_to_history history entry).length = min (history.length + 1) 100
    ∧ (save_to_history history entry).length ≤ 100
    ∧ (history.length = 100 →
        save_to_history history entry = history.drop 1 ++ [entry]) := by
  have hlen : (history ++ [entry]).length = history.length + 1 := by simp
  refine ⟨?_, ?_, ?_⟩
  · simp only [save_to_history, hlen]
    by_cases h : history.length + 1 > 100
    · rw [if_pos h, List.length_drop, hlen]
      omega
    · rw [if_neg h, hlen]
      omega
  · simp only [save_to_history, hlen]
    by_cases h : history.length + 1 > 100
    · rw [if_pos h, List.length_drop, hlen]
      omega
    · rw [if_neg h, hlen]
      omega
  · intro h100
    simp only [save_to_history, hlen, h100]
    rw [if_pos (by omega)]
    have h1 : (100 : Nat) + 1 - 100 = 1 := by omega
    rw [h1, List.drop_append_of_le_length (by omega)]

/-- History entry used to fill the sample 100-entry history. -/
def histE0 : HistoryEntry := { timestamp := "t0", data := [] }

/-- The 101st appended history entry. -/
def histE1 : HistoryEntry := { timestamp := "t1", data := [recCurA] }

theorem claim_C5_witness :
    save_to_history (List.replicate 100 histE0) histE1 =
      (List.replicate 100 histE0).drop 1 ++ [histE1] :=
  (claim_C5 (List.replicate 100 histE0) histE1).2.2 (by simp)

/-- C7: diffing a record set against itself yields, for every id occurring
in it, a change entry with zero win delta, zero reward delta and
`online_change = false`. -/
theorem claim_C7 (S : List NodeRecord) (id : String)
    (h : id ∈ S.map (fun r => r.id)) :
    ∃ e, dictLookup (calculate_changes S (some S)) id = some e ∧
      e.reward_change = 0 ∧ e.score_change = 0 ∧ e.online_change = false := by
  obtain ⟨c, hc⟩ := Option.isSome_iff_exists.mp
    ((lookupLast_isSome_iff S id).mpr h)
  refine ⟨mkChangeEntry c c, ?_, ?_, ?_, ?_⟩
  · rw [calculate_changes_lookup, hc]
  · simp [mkChangeEntry]
  · simp [mkChangeEntry]
  · simp [mkChangeEntry]

theorem claim_C7_witness :
    ∃ e, dictLookup (calculate_changes [recCurA] (some [recCurA]))
        "nodeA" = some e ∧
      e.reward_change = 0 ∧ e.score_change = 0 ∧ e.online_change = false :=
  claim_C7 [recCurA] "nodeA" (by decide)

/-! ## Activity Prober (`get_last_internal_tx_time`, lines 271–350) -/

/-- The all-zero address the contract returns for an unbound identifier. -/
def zeroAddress : String := "0x0000000000000000000000000000000000000000"

/-- Python `int(x)` applied to a float: truncation toward zero. -/
def pyTrunc (q : ℚ) : Int := if 0 ≤ q then ⌊q⌋ else -⌊-q⌋

/-- Python `str.isdigit` on the strings met here (decimal epoch values). -/
def isDigitStr (cs : List Char) : Bool := !cs.isEmpty && cs.all Char.isDigit

/-- Decimal value of a digit string. -/
def digitsToNat (cs : List Char) : Nat :=
  cs.foldl (fun n c => 10 * n + (c.toNat - 48)) 0

/-- Models `str.replace('Z', '+00:00')` at line 325, on the character list. -/
def replaceZ : List Char → List Char
  | [] => []
  | c :: rest =>
      if c = 'Z' then '+' :: '0' :: '0' :: ':' :: '0' :: '0' :: replaceZ rest
      else c :: replaceZ rest

/-- Read exactly `n` decimal digits from the front of the character list. -/
def parseNDigits (n : Nat) (cs : List Char) : Option (Nat × List Char) :=
  let ds := cs.take n
  if ds.length = n && ds.all Char.isDigit then some (digitsToNat ds, cs.drop n)
  else none

/-- Require one fixed character at the front of the character list. -/
def expectChar (c : Char) : List Char → Option (List Char)
  | [] => none
  | c0 :: rest => if c0 = c then some rest else none

/-- Days from 1970-01-01 to the given proleptic-Gregorian civil date, the
standard era-based civil-calendar algorithm; models the date part of
`datetime.fromisoformat(...).timestamp()`. -/
def daysFromCivil (y m d : Nat) : Int :=
  let y2 := if m ≤ 2 then y - 1 else y
  let era := y2 / 400
  let yoe := y2 % 400
  let mp := (m + 9) % 12
  let doy := (153 * mp + 2) / 5 + d - 1
  let doe := yoe * 365 + yoe / 4 - yoe / 100 + doy
  (era * 146097 + doe : Int) - 719468

/-- The `YYYY-MM-DD` prefix of an ISO-8601 string. -/
def parseDate (cs : List Char) : Option (Nat × Nat × Nat × List Char) :=
  match parseNDigits 4 cs with
  | none => none
  | some (y, cs) =>
    match expectChar '-' cs with
    | none => none
    | some cs =>
      match parseNDigits 2 cs with
      | none => none
      | some (mo, cs) =>
        match expectChar '-' cs with
        | none => none
        | some cs =>
          match parseNDigits 2 cs with
          | none => none
          | some (d, cs) => some (y, mo, d, cs)

/-- An `HH:MM:SS` group of an ISO-8601 string. -/
def parseHMS (cs : List Char) : Option (Nat × Nat × Nat × List Char) :=
  match parseNDigits 2 cs with
  | none => none
  | some (h, cs) =>
    match expectChar ':' cs with
    | none => none
    | some cs =>
      match parseNDigits 2 cs with
      | none => none
      | some (mi, cs) =>
        match expectChar ':' cs with
        | none => none
        | some cs =>
          match parseNDigits 2 cs with
          | none => none
          | some (s, cs) => some (h, mi, s, cs)

/-- An `HH:MM` UTC-offset body, as seconds. -/
def parseOffsetHM (cs : List Char) : Option (Nat × List Char) :=
  match parseNDigits 2 cs with
  | none => none
  | some (oh, cs) =>
    match expectChar ':' cs with
    | none => none
    | some cs =>
      match parseNDigits 2 cs with
      | none => none
      | some (om, cs) => some (oh * 3600 + om * 60, cs)

/-- The signed UTC offset ending an ISO-8601 string, in seconds.  A naive
datetime (no explicit offset) would be interpreted by Python's
`.timestamp()` in the host's local timezone, so it is not given a value
here. -/
def parseOffsetTail (cs : List Char) : Option Int :=
  match cs with
  | '+' :: rest =>
    match parseOffsetHM rest with
    | some (off, rest2) => if rest2 = [] then some (off : Int) else none
    | none => none
  | '-' :: rest =>
    match parseOffsetHM rest with
    | some (off, rest2) => if rest2 = [] then some (-(off : Int)) else none
    | none => none
  | _ => none

/-- Models `datetime.fromisoformat` on the shapes reaching line 325 (a date, `T`,
a time, and an explicit UTC offset), followed by `.timestamp()`.
`fromisoformat`'s finer day-of-month validation is approximated by the
range checks. -/
def parseISO (cs : List Char) : Option ℚ :=
  match parseDate cs with
  | none => none
  | some (y, mo, d, cs) =>
    match expectChar 'T' cs with
    | none => none
    | some cs =>
      match parseHMS cs with
      | none => none
      | some (h, mi, s, cs) =>
        if 1 ≤ mo ∧ mo ≤ 12 ∧ 1 ≤ d ∧ d ≤ 31 ∧ h ≤ 23 ∧ mi ≤ 59 ∧ s ≤ 59
        then
          match parseOffsetTail cs with
          | none => none
          | some off =>
            some ((daysFromCivil y mo d * 86400 + h * 3600 + mi * 60 + s
              - off : Int) : ℚ)
        else none

/-- Timestamp normalization, lines 318–326: `str(tx[field])` that is all
digits is an epoch number, divided by 1000 when above the millisecond
magnitude threshold `1000000000000`; any other string has each `'Z'`
replaced by `"+00:00"` and is parsed as ISO-8601 (`none` models the
`ValueError` the code catches and turns into "try the next field"). -/
def parseTimestamp (s : String) : Option ℚ :=
  let cs := s.data
  if isDigitStr cs then
    let timestamp := digitsToNat cs
    if timestamp > 1000000000000 then some ((timestamp : ℚ) / 1000)
    else some (timestamp : ℚ)
  else parseISO (replaceZ cs)

/-- A parsed transaction object: JSON field name ↦ `str(...)` of its value.
A JSON-falsy field value (skipped by `if field in tx and tx[field]`) is
modelled as the empty string. -/
abbrev TxRecord : Type := List (String × String)

/-- The field-name preference list of line 314. -/
def timestamp_fields : List String :=
  ["timestamp", "block_timestamp", "created_at", "time", "block_time"]

/-- Inner loop of lines 316–333: the first present, truthy and parseable
timestamp field of one transaction (`break` after a successful parse,
`continue` on a parse failure). -/
def firstFieldTimestamp (tx : TxRecord) : List String → Option ℚ
  | [] => none
  | f :: rest =>
      match dictLookup tx f with
      | some v =>
          if v = "" then firstFieldTimestamp tx rest
          else
            match parseTimestamp v with
            | some t => some t
            | none => firstFieldTimestamp tx rest
      | none => firstFieldTimestamp tx rest

/-- Lines 312–329: running maximum of the per-transaction timestamps
(`if latest_timestamp is None or timestamp > latest_timestamp`). -/
def latestTimestamp (transactions : List TxRecord) : Option ℚ :=
  transactions.foldl (fun latest tx =>
    match firstFieldTimestamp tx timestamp_fields with
    | some timestamp =>
        match latest with
        | some l => if timestamp > l then some timestamp else some l
        | none => some timestamp
    | none => latest) none

/-- Endpoint fallback loop of lines 293–346.  Each list element is one
endpoint's outcome: `none` for a request error, non-200 status or JSON
decode error (all of which `continue`), `some transactions` for a parsed
body (the envelope unwrapping of lines 301–309 already applied).  The first
endpoint whose transactions yield a truthy latest timestamp returns
`int((current_time - latest_timestamp) / 60)`; everything else falls
through to the next endpoint, and the loop's end returns `None`. -/
def probeEndpoints (now : ℚ) : List (Option (List TxRecord)) → Option Int
  | [] => none
  | none :: rest => probeEndpoints now rest
  | some transactions :: rest =>
      match latestTimestamp transactions with
      | some t =>
          if t ≠ 0 then some (pyTrunc ((now - t) / 60))
          else probeEndpoints now rest
      | none => probeEndpoints now rest

/-- Embeds `get_last_internal_tx_time`, lines 271–350: a missing, empty or
all-zero address short-circuits to `None` before any endpoint is contacted
(`if not eoa_address or eoa_address == "0x000...0"`). -/
def get_last_internal_tx_time (now : ℚ) (eoa_address : Option String)
    (endpoints : List (Option (List TxRecord))) : Option Int :=
  match eoa_address with
  | none => none
  | some a =>
      if a = "" ∨ a = zeroAddress then none
      else probeEndpoints now endpoints

/-! ## Address Resolver (`get_eoa_addresses_batch`, lines 208–269) -/

/-- Value stored for index `i` by lines 254–261: the `i`-th returned
address, with the all-zero address normalized to `None` and indices past
the end of the returned list mapped to `None`. -/
def eoaEntry (eoa_addresses : List String) (i : Nat) : Option String :=
  match eoa_addresses[i]? with
  | some a => if a ≠ zeroAddress then some a else none
  | none => none

/-- The result-dict construction loop of lines 250–261
(`for i in range(len(node_ids))`). -/
def buildEoaResult (node_ids eoa_addresses : List String) :
    List (String × Option String) :=
  (List.range node_ids.length).foldl (fun result i =>
    match node_ids[i]? with
    | some node_id => dictInsert result node_id (eoaEntry eoa_addresses i)
    | none => result) []

/-- First successful contract call among the attempted ones. -/
def firstSuccess : List (Except Unit (List String)) → Option (List String)
  | [] => none
  | Except.ok v :: _ => some v
  | Except.error _ :: rest => firstSuccess rest

/-- Embeds `get_eoa_addresses_batch`.  Here `attempts` lists the outcome of each
`getEoa(...).call` the retry loop (max_retries = 3, 10-second sleep and a
reconnection between attempts) would observe; exhausting the retries
re-raises the failure, which the outer handler converts into the dict
mapping every id to `None` (line 269).  The early `return {}` paths for an
uninitialized or unconnectable Web3 object (lines 210–219) concern the
process environment and are not modelled. -/
def get_eoa_addresses_batch (node_ids : List String)
    (attempts : List (Except Unit (List String))) :
    List (String × Option String) :=
  match firstSuccess (attempts.take 3) with
  | some eoa_addresses => buildEoaResult node_ids eoa_addresses
  | none => node_ids.foldl (fun d nid => dictInsert d nid none) []

/-! ## Collection Pipeline (`collect_node_data`, lines 352–420) -/

/-- Loop body of `collect_node_data` (lines 360–405): a failed peer-info
fetch yields the UNKNOWN record (lines 370–381, still carrying the
resolved address); otherwise the record is built with the `.get`-defaults
of lines 392–403, calling the Activity Prober only for a truthy resolved
address (`if eoa_address:` at line 388).  `txTime` is the Activity Prober
as a function of the address; `nowIso` is `datetime.now().isoformat()`. -/
def buildRecord (node : NodeDescriptor) (peer_info : Option PeerInfo)
    (eoa_address : Option String) (txTime : String → Option Int)
    (nowIso : String) : NodeRecord :=
  match peer_info with
  | none =>
      { id := node.node_id, custom_name := node.custom_name
        api_name := "UNKNOWN", hardware_type := node.hardware_type
        address := eoa_address, reward := 0, score := 0, online := false
        last_tx_minutes_ago := none, timestamp := nowIso }
  | some pi =>
      let last_tx_minutes : Option Int :=
        match eoa_address with
        | some a => if a = "" then none else txTime a
        | none => none
      { id := node.node_id, custom_name := node.custom_name
        api_name := pi.peerName.getD "Unknown"
        hardware_type := node.hardware_type
        address := eoa_address
        reward := pi.score.getD 0
        score := pi.reward.getD 0
        online := pi.online.getD false
        last_tx_minutes_ago := last_tx_minutes, timestamp := nowIso }

/-- Embeds `collect_node_data`: one batched address resolution for all ids,
one record appended per descriptor, in input order. -/
def collect_node_data (nodes_data : List NodeDescriptor)
    (peerInfo : String → Option PeerInfo) (txTime : String → Option Int)
    (attempts : List (Except Unit (List String))) (nowIso : String) :
    List NodeRecord :=
  let eoa_addresses :=
    get_eoa_addresses_batch (nodes_data.map (fun n => n.node_id)) attempts
  nodes_data.foldl (fun results node =>
    results ++ [buildRecord node (peerInfo node.node_id)
      (dictGet eoa_addresses node.node_id) txTime nowIso]) []

/-! ### Address Resolver lemmas -/

theorem dictLookup_eoa_foldl_unique (node_ids eoa_addresses : List String)
    (id : String) (j : Nat) (hj : node_ids[j]? = some id)
    (huniq : ∀ i : Nat, node_ids[i]? = some id → i = j) (is : List Nat)
    (d0 : List (String × Option String)) :
    dictLookup (is.foldl (fun result i =>
        match node_ids[i]? with
        | some node_id => dictInsert result node_id (eoaEntry eoa_addresses i)
        | none => result) d0) id =
      if j ∈ is then some (eoaEntry eoa_addresses j)
      else dictLookup d0 id := by
  induction is generalizing d0 with
  | nil => simp
  | cons i rest ih =>
      simp only [List.foldl_cons]
      by_cases hij : i = j
      · subst hij
        rw [hj, ih]
        by_cases hjr : i ∈ rest
        · simp [hjr]
        · simp [hjr, dictLookup_dictInsert]
      · have hmem : j ∈ i :: rest ↔ j ∈ rest := by
          constructor
          · intro h
            rcases List.mem_cons.mp h with h | h
            · exact absurd h.symm hij
            · exact h
          · exact fun h => List.mem_cons_of_mem _ h
        cases hni : node_ids[i]? with
        | none =>
            rw [ih]
            simp only [hmem]
        | some nid =>
            have hnid : nid ≠ id := fun he => hij (huniq i (he ▸ hni))
            rw [ih, dictLookup_dictInsert, if_neg hnid]
            simp only [hmem]

theorem dictLookup_eoa_foldl_absent (node_ids eoa_addresses : List String)
    (id : String) (habs : ∀ i : Nat, node_ids[i]? ≠ some id) (is : List Nat)
    (d0 : List (String × Option String)) :
    dictLookup (is.foldl (fun result i =>
        match node_ids[i]? with
        | some node_id => dictInsert result node_id (eoaEntry eoa_addresses i)
        | none => result) d0) id = dictLookup d0 id := by
  induction is generalizing d0 with
  | nil => simp
  | cons i rest ih =>
      simp only [List.foldl_cons]
      cases hni : node_ids[i]? with
      | none => rw [ih]
      | some nid =>
          have hnid : nid ≠ id := fun he => habs i (he ▸ hni)
          rw [ih, dictLookup_dictInsert, if_neg hnid]

theorem dictLookup_buildEoaResult (node_ids eoa_addresses : List String)
    (hnd : node_ids.Nodup) (j : Nat) (hj : j < node_ids.length) :
    dictLookup (buildEoaResult node_ids eoa_addresses) node_ids[j] =
      some (eoaEntry eoa_addresses j) := by
  have hj2 : node_ids[j]? = some node_ids[j] := List.getElem?_eq_getElem hj
  have huniq : ∀ i : Nat, node_ids[i]? = some node_ids[j] → i = j := by
    intro i hi
    by_cases hlen : i < node_ids.length
    · have heq : node_ids[i] = node_ids[j] := by
        have := (List.getElem?_eq_getElem hlen).symm.trans hi
        simpa using this
      exact (hnd.getElem_inj_iff).mp heq
    · rw [List.getElem?_eq_none (by omega)] at hi
      cases hi
  rw [buildEoaResult, dictLookup_eoa_foldl_unique node_ids eoa_addresses _ j
    hj2 huniq, if_pos (List.mem_range.mpr hj)]

theorem dictLookup_buildEoaResult_not_mem (node_ids eoa_addresses : List String)
    (id : String) (hid : id ∉ node_ids) :
    dictLookup (buildEoaResult node_ids eoa_addresses) id = none := by
  have habs : ∀ i : Nat, node_ids[i]? ≠ some id := by
    intro i hi
    exact hid (List.getElem?_mem hi)
  rw [buildEoaResult, dictLookup_eoa_foldl_absent node_ids eoa_addresses _
    habs]
  rfl

/-! ## Claim theorems: Address Resolver -/

/-- C10: when the contract call succeeds but returns fewer addresses than
identifiers, the result dict still has exactly one key per input
identifier, identifiers beyond the returned list's length map to `None`,
and no out-of-range indexing occurs (the loop guards every access with
`i < len(eoa_addresses)`, modelled by the total `eoaEntry`). -/
theorem claim_C10 (node_ids eoa_addresses : List String)
    (hnd : node_ids.Nodup) :
    (∀ id, (dictLookup (buildEoaResult node_ids eoa_addresses) id).isSome ↔
        id ∈ node_ids)
    ∧ (∀ i : Nat, ∀ hi : i < node_ids.length, eoa_addresses.length ≤ i →
        dictLookup (buildEoaResult node_ids eoa_addresses) node_ids[i] =
          some none) := by
  constructor
  · intro id
    constructor
    · intro hs
      by_contra hmem
      rw [dictLookup_buildEoaResult_not_mem node_ids eoa_addresses id hmem]
        at hs
      simp at hs
    · intro hmem
      obtain ⟨j, hj, hget⟩ := List.mem_iff_getElem.mp hmem
      rw [← hget, dictLookup_buildEoaResult node_ids eoa_addresses hnd j hj]
      rfl
  · intro i hi hlen
    rw [dictLookup_buildEoaResult node_ids eoa_addresses hnd i hi]
    have h0 : eoa_addresses[i]? = none := List.getElem?_eq_none hlen
    simp [eoaEntry, h0]

theorem claim_C10_witness :
    dictLookup (buildEoaResult ["nodeA", "nodeB"] ["0xABC123"])
      (["nodeA", "nodeB"] : List String)[1] = some none :=
  (claim_C10 ["nodeA", "nodeB"] ["0xABC123"] (by decide)).2 1 (by decide)
    (by decide)

/-! ## Claim theorems: zero-address normalization and prober short-circuit -/

/-- The `address` stored in a record is exactly the resolved address passed
in, for both the failed-peer-info and the successful branch. -/
theorem buildRecord_address (node : NodeDescriptor)
    (peer_info : Option PeerInfo) (eoa_address : Option String)
    (txTime : String → Option Int) (nowIso : String) :
    (buildRecord node peer_info eoa_address txTime nowIso).address =
      eoa_address := by
  cases peer_info <;> rfl

/-- C8: an all-zero resolved address is normalized to `None` by the Address
Resolver, and the Activity Prober is never reached for such a node: the
prober returns `None` for a missing, empty or zero address without
examining any endpoint, and a record built with a `None` address has a
`None` `last_tx_minutes_ago` independently of the prober oracle (the
`if eoa_address:` guard at line 388 never calls it). -/
theorem claim_C8 (node_ids eoa_addresses : List String) (i : Nat)
    (hnd : node_ids.Nodup) (hi : i < node_ids.length)
    (hia : i < eoa_addresses.length) (hz : eoa_addresses[i] = zeroAddress) :
    dictLookup (buildEoaResult node_ids eoa_addresses) node_ids[i] =
        some none
    ∧ (∀ (now : ℚ) (endpoints : List (Option (List TxRecord))),
        get_last_internal_tx_time now (some zeroAddress) endpoints = none)
    ∧ (∀ (now : ℚ) (endpoints : List (Option (List TxRecord))),
        get_last_internal_tx_time now none endpoints = none)
    ∧ (∀ (node : NodeDescriptor) (peer_info : Option PeerInfo)
        (tx1 tx2 : String → Option Int) (nowIso : String),
        buildRecord node peer_info none tx1 nowIso =
          buildRecord node peer_info none tx2 nowIso
        ∧ (buildRecord node peer_info none tx1 nowIso).last_tx_minutes_ago =
            none) := by
  refine ⟨?_, ?_, ?_, ?_⟩
  · rw [dictLookup_buildEoaResult node_ids eoa_addresses hnd i hi]
    have h1 : eoa_addresses[i]? = some zeroAddress := by
      rw [List.getElem?_eq_getElem hia, hz]
    simp [eoaEntry, h1]
  · intro now endpoints
    simp [get_last_internal_tx_time, zeroAddress]
  · intro now endpoints
    rfl
  · intro node peer_info tx1 tx2 nowIso
    cases peer_info <;> exact ⟨rfl, rfl⟩

theorem claim_C8_witness :
    dictLookup (buildEoaResult ["nodeA", "nodeB"]
        [zeroAddress, "0xABC123"]) (["nodeA", "nodeB"] : List String)[0] =
      some none :=
  (claim_C8 ["nodeA", "nodeB"] [zeroAddress, "0xABC123"] 0 (by decide)
    (by decide) (by decide) (by decide)).1

/-! ## Claim theorems: batch failure degradation (C3) -/

theorem firstSuccess_all_error (l : List (Except Unit (List String)))
    (h : ∀ a ∈ l, a = Except.error ()) : firstSuccess l = none := by
  induction l with
  | nil => rfl
  | cons a rest ih =>
      cases a with
      | ok v =>
          exact absurd (h _ (List.mem_cons_self _ _)) (by simp)
      | error e =>
          exact ih fun a ha => h a (List.mem_cons_of_mem _ ha)

theorem dictGet_foldl_insert_none (ids : List String)
    (d0 : List (String × Option String)) (nid : String)
    (h0 : dictGet d0 nid = none) :
    dictGet (ids.foldl (fun d n => dictInsert d n none) d0) nid = none := by
  induction ids generalizing d0 with
  | nil => exact h0
  | cons i rest ih =>
      simp only [List.foldl_cons]
      apply ih
      simp only [dictGet, dictLookup_dictInsert]
      by_cases hin : i = nid
      · simp [hin]
      · simp only [if_neg hin]
        exact h0

/-- Fact: `collect_node_data` is the map of the per-descriptor record builder
over the roster, in input order. -/
theorem collect_node_data_eq_map (nodes_data : List NodeDescriptor)
    (peerInfo : String → Option PeerInfo) (txTime : String → Option Int)
    (attempts : List (Except Unit (List String))) (nowIso : String) :
    collect_node_data nodes_data peerInfo txTime attempts nowIso =
      nodes_data.map (fun node => buildRecord node (peerInfo node.node_id)
        (dictGet (get_eoa_addresses_batch
          (nodes_data.map (fun n => n.node_id)) attempts) node.node_id)
        txTime nowIso) := by
  simp only [collect_node_data]
  have haux : ∀ (l : List NodeDescriptor) (l0 : List NodeRecord)
      (f : NodeDescriptor → NodeRecord),
      l.foldl (fun results node => results ++ [f node]) l0 = l0 ++ l.map f := by
    intro l
    induction l with
    | nil => simp
    | cons x xs ih =>
        intro l0 f
        simp only [List.foldl_cons, List.map_cons, ih]
        simp
  rw [haux]
  simp

/-- C3: when all (at most 3) contract-call attempts fail, the resolver's
result maps every queried identifier to `None`, and every record produced
by that cycle carries a `None` address — the cycle itself still produces
its records rather than crashing (the `raise` at line 248 is caught at
line 267 and converted to the all-`None` dict at line 269). -/
theorem claim_C3 (nodes_data : List NodeDescriptor)
    (peerInfo : String → Option PeerInfo) (txTime : String → Option Int)
    (attempts : List (Except Unit (List String))) (nowIso : String)
    (hfail : ∀ a ∈ attempts, a = Except.error ()) :
    (∀ nid, dictGet (get_eoa_addresses_batch
        (nodes_data.map (fun n => n.node_id)) attempts) nid = none)
    ∧ (∀ r ∈ collect_node_data nodes_data peerInfo txTime attempts nowIso,
        r.address = none) := by
  have hfs : firstSuccess (attempts.take 3) = none :=
    firstSuccess_all_error _ fun a ha => hfail a (List.mem_of_mem_take ha)
  have hbatch : ∀ nid, dictGet (get_eoa_addresses_batch
      (nodes_data.map (fun n => n.node_id)) attempts) nid = none := by
    intro nid
    rw [get_eoa_addresses_batch, hfs]
    exact dictGet_foldl_insert_none _ [] nid rfl
  refine ⟨hbatch, ?_⟩
  intro r hr
  rw [collect_node_data_eq_map] at hr
  obtain ⟨node, _, hnode⟩ := List.mem_map.mp hr
  rw [← hnode, buildRecord_address, hbatch]

/-- Roster descriptor used in the concrete scenarios. -/
def ndA : NodeDescriptor :=
  { custom_name := "N1", node_id := "nodeA", hardware_type := "CPU" }

/-- Second roster descriptor used in the concrete scenarios. -/
def ndB : NodeDescriptor :=
  { custom_name := "N2", node_id := "nodeB", hardware_type := "GPU" }

/-- Peer-info oracle of the concrete scenarios: succeeds for nodeB only. -/
def peerFB : String → Option PeerInfo := fun nid =>
  if nid = "nodeB" then
    some { peerName := some "apiB", online := some true, score := some 4
           reward := some 9 }
  else none

/-- Activity Prober oracle of the concrete scenarios. -/
def txF : String → Option Int := fun _ => some 3

theorem claim_C3_witness :
    dictGet (get_eoa_addresses_batch
        (([ndA, ndB].map (fun n => n.node_id)))
        [Except.error (), Except.error (), Except.error ()]) "nodeA" =
      none :=
  (claim_C3 [ndA, ndB] peerFB txF
    [Except.error (), Except.error (), Except.error ()] "t"
    (by intro a ha; fin_cases ha <;> rfl)).1 "nodeA"

/-! ## Claim theorems: Collection Pipeline (C4) and field mapping (C9) -/

/-- C4: for every roster the pipeline returns exactly one record per input
descriptor, in input order; a descriptor whose peer-info fetch returns
`None` yields a record with `online = false`, zero counters,
`last_tx_minutes_ago = None`, `api_name = "UNKNOWN"` and whatever address
was resolved for it, and the remaining descriptors are still processed
(the records at every other index are unaffected). -/
theorem claim_C4 (nodes_data : List NodeDescriptor)
    (peerInfo : String → Option PeerInfo) (txTime : String → Option Int)
    (attempts : List (Except Unit (List String))) (nowIso : String) :
    (collect_node_data nodes_data peerInfo txTime attempts nowIso).length =
        nodes_data.length
    ∧ (∀ i : Nat,
        (collect_node_data nodes_data peerInfo txTime attempts nowIso)[i]? =
          (nodes_data[i]?).map (fun node =>
            buildRecord node (peerInfo node.node_id)
              (dictGet (get_eoa_addresses_batch
                (nodes_data.map (fun n => n.node_id)) attempts) node.node_id)
              txTime nowIso))
    ∧ (∀ (i : Nat) (node : NodeDescriptor), nodes_data[i]? = some node →
        peerInfo node.node_id = none →
        (collect_node_data nodes_data peerInfo txTime attempts nowIso)[i]? =
          some { id := node.node_id, custom_name := node.custom_name
                 api_name := "UNKNOWN", hardware_type := node.hardware_type
                 address := dictGet (get_eoa_addresses_batch
                   (nodes_data.map (fun n => n.node_id)) attempts)
                   node.node_id
                 reward := 0, score := 0, online := false
                 last_tx_minutes_ago := none, timestamp := nowIso }) := by
  rw [collect_node_data_eq_map]
  refine ⟨by simp, ?_, ?_⟩
  · intro i
    rw [List.getElem?_map]
  · intro i node hnode hpeer
    rw [List.getElem?_map, hnode]
    simp only [Option.map_some']
    rw [hpeer]
    rfl

theorem claim_C4_witness :
    (collect_node_data [ndA, ndB] peerFB txF
        [Except.ok [zeroAddress, "0xABC123"]] "t")[0]? =
      some { id := "nodeA", custom_name := "N1", api_name := "UNKNOWN"
             hardware_type := "CPU", address := none, reward := 0, score := 0
             online := false, last_tx_minutes_ago := none
             timestamp := "t" } :=
  ((claim_C4 [ndA, ndB] peerFB txF [Except.ok [zeroAddress, "0xABC123"]]
    "t").2.2 0 ndA (by decide) (by decide)).trans (by decide)

/-- C9: on a successful peer-info fetch the cross-wired mapping is
preserved verbatim: the record's win counter (field `reward`) is the
response's `score` field and the record's reward counter (field `score`)
is the response's `reward` field; missing `peerName` / `online` / `score` /
`reward` fields default to `"Unknown"` / `false` / `0` / `0`. -/
theorem claim_C9 (node : NodeDescriptor) (pi : PeerInfo)
    (eoa_address : Option String) (txTime : String → Option Int)
    (nowIso : String) :
    (buildRecord node (some pi) eoa_address txTime nowIso).reward =
        pi.score.getD 0
    ∧ (buildRecord node (some pi) eoa_address txTime nowIso).score =
        pi.reward.getD 0
    ∧ (buildRecord node (some pi) eoa_address txTime nowIso).api_name =
        pi.peerName.getD "Unknown"
    ∧ (buildRecord node (some pi) eoa_address txTime nowIso).online =
        pi.online.getD false :=
  ⟨rfl, rfl, rfl, rfl⟩

/-! ## Claim theorems: timestamp normalization (C6) -/

/-- A digit-only string below the millisecond threshold is epoch seconds. -/
theorem parseTimestamp_digits (s : String) (n : Nat)
    (hd : isDigitStr s.data = true) (hn : digitsToNat s.data = n)
    (hsmall : ¬ n > 1000000000000) : parseTimestamp s = some (n : ℚ) := by
  simp only [parseTimestamp, hd, if_true, hn, if_neg hsmall]

/-- A digit-only string above the millisecond threshold is epoch
milliseconds, divided by 1000. -/
theorem parseTimestamp_digits_ms (s : String) (n : Nat)
    (hd : isDigitStr s.data = true) (hn : digitsToNat s.data = n)
    (hbig : n > 1000000000000) : parseTimestamp s = some ((n : ℚ) / 1000) := by
  simp only [parseTimestamp, hd, if_true, hn, if_pos hbig]

/-- C6: the epoch-seconds value `1700000000` and the epoch-milliseconds
value `1700000000000` (milliseconds detected by the magnitude threshold)
normalize to the same instant, and the ISO-8601 string
`"2023-11-14T22:13:20+00:00"` — as well as its `'Z'`-designator
equivalent — normalizes to that same instant. -/
theorem claim_C6 :
    parseTimestamp "1700000000" = some 1700000000
    ∧ parseTimestamp "1700000000000" = some 1700000000
    ∧ parseTimestamp "2023-11-14T22:13:20+00:00" = some 1700000000
    ∧ parseTimestamp "2023-11-14T22:13:20Z" = some 1700000000 := by
  refine ⟨by decide, ?_, by decide, by decide⟩
  rw [parseTimestamp_digits_ms "1700000000000" 1700000000000 (by decide)
    (by decide) (by decide)]
  norm_num

/-! ## Claim theorems: transaction-age computation (C1) -/

/-- Whether one endpoint outcome provides a truthy latest timestamp (the
condition under which the loop of lines 293–346 returns from it). -/
def endpointYields (e : Option (List TxRecord)) : Bool :=
  match e with
  | some txs =>
      match latestTimestamp txs with
      | some t => t != 0
      | none => false
  | none => false

theorem probeEndpoints_cons_none (now : ℚ)
    (rest : List (Option (List TxRecord))) :
    probeEndpoints now (none :: rest) = probeEndpoints now rest := rfl

theorem probeEndpoints_cons_yield (now : ℚ) (txs : List TxRecord)
    (rest : List (Option (List TxRecord))) (t : ℚ)
    (hl : latestTimestamp txs = some t) :
    probeEndpoints now (some txs :: rest) =
      if t ≠ 0 then some (pyTrunc ((now - t) / 60))
      else probeEndpoints now rest := by
  rw [probeEndpoints, hl]

theorem probeEndpoints_cons_empty (now : ℚ) (txs : List TxRecord)
    (rest : List (Option (List TxRecord)))
    (hl : latestTimestamp txs = none) :
    probeEndpoints now (some txs :: rest) = probeEndpoints now rest := by
  rw [probeEndpoints, hl]

theorem probeEndpoints_eq_none_iff (now : ℚ) :
    ∀ endpoints : List (Option (List TxRecord)),
    probeEndpoints now endpoints = none ↔
      ∀ e ∈ endpoints, endpointYields e = false := by
  intro endpoints
  induction endpoints with
  | nil => simp [probeEndpoints]
  | cons e rest ih =>
      cases e with
      | none =>
          simp only [probeEndpoints, ih]
          constructor
          · intro h e2 he2
            rcases List.mem_cons.mp he2 with he2 | he2
            · rw [he2]; rfl
            · exact h e2 he2
          · intro h e2 he2
            exact h e2 (List.mem_cons_of_mem _ he2)
      | some txs =>
          cases hl : latestTimestamp txs with
          | none =>
              rw [probeEndpoints_cons_empty now txs rest hl, ih]
              constructor
              · intro h e2 he2
                rcases List.mem_cons.mp he2 with he2 | he2
                · rw [he2]; simp [endpointYields, hl]
                · exact h e2 he2
              · intro h e2 he2
                exact h e2 (List.mem_cons_of_mem _ he2)
          | some t =>
              rw [probeEndpoints_cons_yield now txs rest t hl]
              by_cases ht : t ≠ 0
              · rw [if_pos ht]
                constructor
                · intro h; cases h
                · intro h
                  have h2 := h (some txs) (List.mem_cons_self _ _)
                  simp only [endpointYields, hl, bne_iff_ne] at h2
                  exact absurd (by simpa using h2) ht
              · rw [if_neg ht, ih]
                push_neg at ht
                constructor
                · intro h e2 he2
                  rcases List.mem_cons.mp he2 with he2 | he2
                  · rw [he2]; simp [endpointYields, hl, ht]
                  · exact h e2 he2
                · intro h e2 he2
                  exact h e2 (List.mem_cons_of_mem _ he2)

theorem probeEndpoints_eq_some (now : ℚ) :
    ∀ (endpoints : List (Option (List TxRecord))) (r : Int),
    probeEndpoints now endpoints = some r →
      ∃ txs t, some txs ∈ endpoints ∧ latestTimestamp txs = some t ∧
        t ≠ 0 ∧ r = pyTrunc ((now - t) / 60) := by
  intro endpoints
  induction endpoints with
  | nil => intro r h; cases h
  | cons e rest ih =>
      intro r h
      cases e with
      | none =>
          obtain ⟨txs, t, h1, h2, h3, h4⟩ := ih r h
          exact ⟨txs, t, List.mem_cons_of_mem _ h1, h2, h3, h4⟩
      | some txs =>
          cases hl : latestTimestamp txs with
          | none =>
              rw [probeEndpoints_cons_empty now txs rest hl] at h
              obtain ⟨txs2, t, h1, h2, h3, h4⟩ := ih r h
              exact ⟨txs2, t, List.mem_cons_of_mem _ h1, h2, h3, h4⟩
          | some t =>
              rw [probeEndpoints_cons_yield now txs rest t hl] at h
              by_cases ht : t ≠ 0
              · rw [if_pos ht] at h
                exact ⟨txs, t, List.mem_cons_self _ _, hl, ht,
                  (Option.some.inj h).symm⟩
              · rw [if_neg ht] at h
                obtain ⟨txs2, t2, h1, h2, h3, h4⟩ := ih r h
                exact ⟨txs2, t2, List.mem_cons_of_mem _ h1, h2, h3, h4⟩

theorem pyTrunc_nonneg {q : ℚ} (h : 0 ≤ q) : 0 ≤ pyTrunc q := by
  rw [pyTrunc, if_pos h]
  exact Int.floor_nonneg.mpr h

/-- C1 (amended): with a usable address, `last_tx_age_minutes` is `None`
exactly when no endpoint yields a truthy (nonzero) latest timestamp; a
non-`None` value equals the toward-zero truncation of
`(now − latest) / 60` for an endpoint's latest parsed timestamp, and is
non-negative whenever that timestamp is not later than `now` (a parsed
timestamp later than `now` makes the value negative, see the
counterexample). -/
theorem claim_C1 (now : ℚ) (a : String)
    (endpoints : List (Option (List TxRecord)))
    (ha : ¬(a = "" ∨ a = zeroAddress)) :
    (get_last_internal_tx_time now (some a) endpoints = none ↔
      ∀ e ∈ endpoints, endpointYields e = false)
    ∧ (∀ r : Int, get_last_internal_tx_time now (some a) endpoints = some r →
        ∃ txs t, some txs ∈ endpoints ∧ latestTimestamp txs = some t ∧
          t ≠ 0 ∧ r = pyTrunc ((now - t) / 60) ∧ (t ≤ now → 0 ≤ r)) := by
  simp only [get_last_internal_tx_time, if_neg ha]
  constructor
  · exact probeEndpoints_eq_none_iff now endpoints
  · intro r h
    obtain ⟨txs, t, h1, h2, h3, h4⟩ := probeEndpoints_eq_some now endpoints r h
    refine ⟨txs, t, h1, h2, h3, h4, fun hle => ?_⟩
    rw [h4]
    exact pyTrunc_nonneg (div_nonneg (sub_nonneg.mpr hle) (by norm_num))

/-! ### Concrete evaluations for C1 -/

theorem firstFieldTimestamp_single (v : String) (t : ℚ) (hv : ¬ v = "")
    (hp : parseTimestamp v = some t) :
    firstFieldTimestamp [("timestamp", v)] timestamp_fields = some t := by
  have h1 : firstFieldTimestamp [("timestamp", v)] timestamp_fields =
      if v = "" then
        firstFieldTimestamp [("timestamp", v)]
          ["block_timestamp", "created_at", "time", "block_time"]
      else
        match parseTimestamp v with
        | some t => some t
        | none =>
            firstFieldTimestamp [("timestamp", v)]
              ["block_timestamp", "created_at", "time", "block_time"] := rfl
  rw [h1, if_neg hv, hp]

theorem latestTimestamp_single (tx : TxRecord) (t : ℚ)
    (h : firstFieldTimestamp tx timestamp_fields = some t) :
    latestTimestamp [tx] = some t := by
  simp only [latestTimestamp, List.foldl_cons, List.foldl_nil, h]

theorem gltit_single (now : ℚ) (a : String)
    (ha : ¬(a = "" ∨ a = zeroAddress)) (txs : List TxRecord) (t : ℚ)
    (hl : latestTimestamp txs = some t) (ht : t ≠ 0) :
    get_last_internal_tx_time now (some a) [some txs] =
      some (pyTrunc ((now - t) / 60)) := by
  simp only [get_last_internal_tx_time, if_neg ha]
  rw [probeEndpoints_cons_yield now txs [] t hl, if_pos ht]

theorem gltit_eval_past :
    get_last_internal_tx_time 1700000000 (some "0xabcd")
      [some [[("timestamp", "1699999940")]]] = some 1 := by
  have hp : parseTimestamp "1699999940" = some ((1699999940 : Nat) : ℚ) :=
    parseTimestamp_digits _ _ (by decide) (by decide) (by decide)
  have hl : latestTimestamp [[("timestamp", "1699999940")]] =
      some ((1699999940 : Nat) : ℚ) :=
    latestTimestamp_single _ _ (firstFieldTimestamp_single _ _ (by decide) hp)
  rw [gltit_single 1700000000 "0xabcd" (by decide) _ _ hl
    (by push_cast; norm_num)]
  have harg : ((1700000000 : ℚ) - ((1699999940 : Nat) : ℚ)) / 60 = 1 := by
    push_cast
    norm_num
  rw [harg]
  norm_num [pyTrunc]

theorem claim_C1_witness :
    ∃ txs t, some txs ∈ ([some [[("timestamp", "1699999940")]]] :
        List (Option (List TxRecord))) ∧ latestTimestamp txs = some t ∧
      t ≠ 0 ∧ (1 : Int) = pyTrunc ((1700000000 - t) / 60) ∧
      (t ≤ 1700000000 → 0 ≤ (1 : Int)) :=
  (claim_C1 1700000000 "0xabcd" [some [[("timestamp", "1699999940")]]]
    (by decide)).2 1 gltit_eval_past

/-- C1 (counterexample to the claim as stated): a transaction whose parsed
timestamp lies 90 seconds in the future of `now` produces
`last_tx_age_minutes = -1` — negative, and also different from
`floor((now − latest) / 60) = -2` (Python `int()` truncates toward zero
rather than flooring). -/
theorem claim_C1_counterexample :
    get_last_internal_tx_time 1700000000 (some "0xabcd")
        [some [[("timestamp", "1700000090")]]] = some (-1)
    ∧ ((-1 : Int) < 0)
    ∧ ⌊((1700000000 : ℚ) - 1700000090) / 60⌋ = -2 := by
  refine ⟨?_, by norm_num, by norm_num⟩
  have hp : parseTimestamp "1700000090" = some ((1700000090 : Nat) : ℚ) :=
    parseTimestamp_digits _ _ (by decide) (by decide) (by decide)
  have hl : latestTimestamp [[("timestamp", "1700000090")]] =
      some ((1700000090 : Nat) : ℚ) :=
    latestTimestamp_single _ _ (firstFieldTimestamp_single _ _ (by decide) hp)
  rw [gltit_single 1700000000 "0xabcd" (by decide) _ _ hl
    (by push_cast; norm_num)]
  have harg : ((1700000000 : ℚ) - ((1700000090 : Nat) : ℚ)) / 60 = -3 / 2 := by
    push_cast
    norm_num
  rw [harg]
  have hif : ¬ (0 : ℚ) ≤ -3 / 2 := by norm_num
  rw [pyTrunc, if_neg hif]
  norm_num
